import Mathlib

/-!
# Verification of the AutoRia monitoring bot core

A shallow embedding of the repository's core logic:

* `src/parser/scraper.py` — listing extraction from the embedded Pinia/NUXT
  JSON state (`_extract_cars_from_pinia`), detail enrichment
  (`_enrich_missing_details`), search-query construction (`search_cars`),
  and the reference caches (`get_brands`, `get_states`, `get_models`);
* `src/bot/scheduler.py` — the per-subscription processing unit
  (`process_search`): safety filter, seen-set check, delivery;
* `src/database/repository.py` — the seen-set insert-if-absent operation
  (`is_car_seen`).

Python values flowing through the untyped JSON trees are modelled by the
`Json` inductive below; Python truthiness, `str()`, `int()`, dict `.get`,
`.strip()` and substring tests are embedded explicitly.  Numeric JSON leaves
are modelled as integers (the code paths under study only use integral
values); character case-folding and whitespace are modelled on the ASCII
range.  Network I/O (HTTP fetches, the regex/`json.loads` step that locates
the embedded state blob, and the per-item detail endpoint) is the process
boundary: fetch outcomes enter the model as explicit `Option`-valued inputs,
`none` standing for a non-success status or transport/parse error.
-/

/-! ## JSON values

`json.loads` output.  A mutual inductive (rather than a nested `List`) so
that all functions below are structurally recursive and reduce inside the
kernel. -/

mutual
/-- A parsed JSON value. Numbers are modelled as integers. -/
inductive Json where
  | null
  | bool (b : Bool)
  | num (n : Int)
  | str (s : String)
  | arr (items : JsonList)
  | obj (fields : JsonObj)
deriving Repr, Inhabited, DecidableEq
/-- A JSON array, as a bespoke list. -/
inductive JsonList where
  | nil
  | cons (hd : Json) (tl : JsonList)
deriving Repr, Inhabited, DecidableEq
/-- A JSON object: ordered key/value bindings (Python dicts keep insertion
order and have unique keys). -/
inductive JsonObj where
  | nil
  | cons (key : String) (val : Json) (tl : JsonObj)
deriving Repr, Inhabited, DecidableEq
end

/-- Build a `JsonList` from a Lean list (for concrete test inputs). -/
def JsonList.ofList : List Json → JsonList
  | [] => .nil
  | x :: xs => .cons x (JsonList.ofList xs)

/-- Build a `JsonObj` from a Lean list (for concrete test inputs). -/
def JsonObj.ofList : List (String × Json) → JsonObj
  | [] => .nil
  | (k, v) :: xs => .cons k v (JsonObj.ofList xs)

/-- Array literal helper. -/
def jarr (l : List Json) : Json := .arr (JsonList.ofList l)

/-- Object literal helper. -/
def jobj (l : List (String × Json)) : Json := .obj (JsonObj.ofList l)

/-- Emptiness of a JSON array. -/
def JsonList.isNil : JsonList → Bool
  | .nil => true
  | .cons _ _ => false

/-- Emptiness of a JSON object. -/
def JsonObj.isNil : JsonObj → Bool
  | .nil => true
  | .cons _ _ _ => false

/-- Python truthiness (`bool(x)`) of a JSON value. -/
def truthy : Json → Bool
  | .null => false
  | .bool b => b
  | .num n => n != 0
  | .str s => s != ""
  | .arr l => !l.isNil
  | .obj l => !l.isNil

/-- `d.get(k)` / `d[k]` on a Python dict: the binding of key `k`. -/
def JsonObj.lookup? : JsonObj → String → Option Json
  | .nil, _ => none
  | .cons k v t, key => if k == key then some v else JsonObj.lookup? t key

/-- `d.get(k, dflt)`. -/
def dictGet (fs : JsonObj) (k : String) (dflt : Json) : Json :=
  (fs.lookup? k).getD dflt

/-- `k in d` for a Python dict. -/
def hasKey (fs : JsonObj) (k : String) : Bool :=
  (fs.lookup? k).isSome

/-! ## Python string and integer primitives -/

/-- ASCII whitespace (the model of Python `str.strip`'s character class). -/
def isSpaceChar (c : Char) : Bool :=
  c = ' ' || c = '\t' || c = '\n' || c = '\r' || c = '\x0b' || c = '\x0c'

/-- Python `s.strip()` (ASCII whitespace). -/
def pyStrip (s : String) : String :=
  ⟨((s.toList.dropWhile isSpaceChar).reverse.dropWhile isSpaceChar).reverse⟩

/-- Python `s.replace(" ", "")`. -/
def removeSpaces (s : String) : String :=
  ⟨s.toList.filter (fun c => c ≠ ' ')⟩

/-- Numeric value of a list of decimal digit characters. -/
def digitsVal (l : List Char) : Nat :=
  l.foldl (fun acc c => acc * 10 + (c.toNat - 48)) 0

/-- Python `int(s)` on a string: optional surrounding whitespace, optional
sign, then decimal digits; anything else raises `ValueError` (→ `none`).
(Underscore digit separators are not modelled.) -/
def parseIntStr (s : String) : Option Int :=
  match (pyStrip s).toList with
  | '-' :: rest =>
      if rest ≠ [] ∧ rest.all Char.isDigit then some (-(digitsVal rest : Int)) else none
  | '+' :: rest =>
      if rest ≠ [] ∧ rest.all Char.isDigit then some ((digitsVal rest : Int)) else none
  | l => if l ≠ [] ∧ l.all Char.isDigit then some ((digitsVal l : Int)) else none

/-- Python `int(x)` on a JSON value: numbers convert, booleans count as
ints (`isinstance(True, int)`), numeric strings parse, everything else
raises `TypeError`/`ValueError` (→ `none`). -/
def pyInt : Json → Option Int
  | .num n => some n
  | .bool b => some (if b then 1 else 0)
  | .str s => parseIntStr s
  | _ => none

/-- `needle` is a prefix of `hay` (Python `str.startswith`). -/
def hasPre : List Char → List Char → Bool
  | [], _ => true
  | _ :: _, [] => false
  | a :: n, b :: h => a == b && hasPre n h

/-- Helper for `containsSub`: does `n` occur in the haystack at some
position? -/
def subAux (n : List Char) : List Char → Bool
  | [] => n.isEmpty
  | b :: h => hasPre n (b :: h) || subAux n h

/-- Python `needle in hay` on strings: substring occurrence. -/
def containsSub (needle hay : String) : Bool :=
  subAux needle.toList hay.toList

/-- Python `s.lower()` (case mapping modelled on the ASCII range). -/
def lowerStr (s : String) : String := ⟨s.toList.map Char.toLower⟩

/-- Decimal digits of `n` with `fuel` recursion budget, accumulator style
(`natRepr` supplies a sufficient budget). -/
def natDigitsAux : Nat → Nat → List Char → List Char
  | 0, _, acc => acc
  | fuel + 1, n, acc =>
      if n < 10 then Char.ofNat (48 + n % 10) :: acc
      else natDigitsAux fuel (n / 10) (Char.ofNat (48 + n % 10) :: acc)

/-- Decimal rendering of a natural number. -/
def natRepr (n : Nat) : String := ⟨natDigitsAux (n + 1) n []⟩

/-- Python `str(n)` for an integer: decimal, `-` sign for negatives. -/
def intRepr (n : Int) : String :=
  if n < 0 then "-" ++ natRepr n.natAbs else natRepr n.natAbs

mutual
/-- Python `repr` of a JSON value (what `str` uses inside containers). -/
def pyRepr : Json → String
  | .null => "None"
  | .bool true => "True"
  | .bool false => "False"
  | .num n => intRepr n
  | .str s => "'" ++ s ++ "'"
  | .arr items => "[" ++ reprItems items ++ "]"
  | .obj fields => "\x7b" ++ reprFields fields ++ "\x7d"
/-- Comma-joined `repr`s of array items. -/
def reprItems : JsonList → String
  | .nil => ""
  | .cons h t => pyRepr h ++ reprItemsTail t
/-- Tail of `reprItems`: each further item with a leading separator. -/
def reprItemsTail : JsonList → String
  | .nil => ""
  | .cons h t => ", " ++ pyRepr h ++ reprItemsTail t
/-- Comma-joined `'key': repr(value)` renderings of object fields. -/
def reprFields : JsonObj → String
  | .nil => ""
  | .cons k v t => "'" ++ k ++ "': " ++ pyRepr v ++ reprFieldsTail t
/-- Tail of `reprFields`. -/
def reprFieldsTail : JsonObj → String
  | .nil => ""
  | .cons k v t => ", '" ++ k ++ "': " ++ pyRepr v ++ reprFieldsTail t
end

/-- Python `str` of a JSON value: a string prints bare, everything else via
`repr`. -/
def pyStr (j : Json) : String :=
  match j with
  | .str s => s
  | _ => pyRepr j

example : pyStr (jobj [("USD", .num 5000)]) = "\x7b'USD': 5000\x7d" := by decide

example : containsSub "USD" (pyStr (jobj [("USD", .num 5000)])) = true := by decide

example : containsSub "USD" (pyStr (.num 5000)) = false := by decide

/-! ## The listing record

`CarDTO` from `src/parser/scraper.py`.  All fields carry the dataclass's
declared types except `image_url`: the source can store a non-string JSON
value there (`first.get("src")` is returned unchecked), so it is modelled
as a `Json` value. -/

/-- One car advertisement, as built by the extractor. -/
structure CarDTO where
  id : Int
  title : String
  price_usd : Int
  url : String
  mileage : Int := 0
  image_url : Json := Json.str ""
  location : String := ""
  gearbox : String := ""
  fuel : String := ""
deriving Repr, Inhabited, DecidableEq

/-! ## Listing extractor (`_extract_cars_from_pinia`, lines 215–336)

The regex-and-`json.loads` step that locates the embedded state blob is the
I/O boundary; the functions below start from the parsed JSON value
(`json_data` in the source).  A parse/marker failure corresponds to the
falsy root handled in `extract_cars_from_pinia`. -/

/-- The candidate heuristic (lines 250–251): the object has `id` and
`price` keys, `"USD" in str(obj["price"])`, and a `basicInfo` or `title`
key. -/
def isCand (fs : JsonObj) : Bool :=
  hasKey fs "id" && hasKey fs "price" &&
    containsSub "USD" (pyStr (dictGet fs "price" .null)) &&
    (hasKey fs "basicInfo" || hasKey fs "title")

mutual
/-- `collect` (lines 247–258): gather candidate objects; a matched
object's subtree is not walked further. -/
def collectJson : Json → List JsonObj
  | .obj fs => if isCand fs then [fs] else collectFields fs
  | .arr items => collectItems items
  | _ => []
/-- `collect` over the items of an array. -/
def collectItems : JsonList → List JsonObj
  | .nil => []
  | .cons h t => collectJson h ++ collectItems t
/-- `collect` over the values of a non-candidate object. -/
def collectFields : JsonObj → List JsonObj
  | .nil => []
  | .cons _ v t => collectJson v ++ collectFields t
end

/-- Price extraction (lines 269–274): a dict price reads its `USD` field
(`int(price_obj.get("USD", 0) or 0)`), a bare number (or bool) converts
directly, anything else leaves the initial `0`.  `none` models an
exception raised by `int(...)`. -/
def extractPriceVal (d : JsonObj) : Option Int :=
  match dictGet d "price" .null with
  | .obj pfs =>
      let uv := dictGet pfs "USD" (.num 0)
      pyInt (if truthy uv then uv else .num 0)
  | .num n => some n
  | .bool b => some (if b then 1 else 0)
  | _ => some 0

/-- Title extraction (lines 279–284): `content` or `name` of a dict title,
a bare string, default `"Auto"`.  The value is passed through `str()` at
DTO construction. -/
def extractTitleTxt (d : JsonObj) : Json :=
  match dictGet d "title" .null with
  | .obj tfs =>
      let c := dictGet tfs "content" .null
      let n := dictGet tfs "name" .null
      if truthy c then c else if truthy n then n else .str "Auto"
  | .str s => .str s
  | _ => .str "Auto"

/-- Link construction (lines 287–289): the `link` field or a default URL
built from the id; made absolute when relative.  `none` models the
`AttributeError` from `.startswith` on a truthy non-string `link`. -/
def extractLink (d : JsonObj) (car_id : Json) : Option String :=
  let l := dictGet d "link" (.str "")
  let l2 :=
    if truthy l then l
    else .str ("https://auto.ria.com/uk/auto_" ++ pyStr car_id ++ ".html")
  match l2 with
  | .str s => some (if hasPre "http".toList s.toList then s else "https://auto.ria.com" ++ s)
  | _ => none

/-- Image extraction (lines 292–299): first entry of `photos` (or
`photoData.seo`), reading `src` or `formats.middle` from a dict entry, or
a bare string.  `none` models the `.get` exceptions on truthy non-dict
`photoData`/`formats`. -/
def extractImg (d : JsonObj) : Option Json :=
  let p1 := dictGet d "photos" (.arr .nil)
  let photosOpt : Option Json :=
    if truthy p1 then some p1
    else
      match dictGet d "photoData" (.obj .nil) with
      | .obj pdfs => some (dictGet pdfs "seo" (.arr .nil))
      | _ => none
  match photosOpt with
  | none => none
  | some photos =>
    match photos with
    | .arr (.cons first _) =>
      match first with
      | .obj ffs =>
        let sv := dictGet ffs "src" .null
        if truthy sv then some sv
        else
          match dictGet ffs "formats" (.obj .nil) with
          | .obj mfs => some (dictGet mfs "middle" (.str ""))
          | _ => none
      | .str s => some (.str s)
      | _ => some (.str "")
    | _ => some (.str "")

/-- Fields accumulated from the `basicInfo` label/icon pairs. -/
structure InfoAcc where
  mileage : Int := 0
  loc : String := ""
  gear : String := ""
  fuel : String := ""
deriving Repr, Inhabited, DecidableEq

/-- `re.search(r"(\d+)", ...)` then `int` on the first digit run
(ASCII digits). -/
def firstDigitsVal : List Char → Option Int
  | [] => none
  | c :: rest =>
      if c.isDigit then some ((digitsVal ((c :: rest).takeWhile Char.isDigit) : Int))
      else firstDigitsVal rest

/-- One `basicInfo` entry (lines 309–318): classify by the icon name or a
distance-unit marker in the text.  `none` models the exceptions on a
non-dict entry or a truthy non-dict `icon`. -/
def procInfo (acc : InfoAcc) (info : Json) : Option InfoAcc :=
  match info with
  | .obj ifs =>
    let cv := dictGet ifs "content" .null
    let txt := pyStrip (pyStr (if truthy cv then cv else .str ""))
    let iv := dictGet ifs "icon" .null
    match (if truthy iv then iv else .obj .nil) with
    | .obj iofs =>
      let dv := dictGet iofs "data" .null
      let icon := pyStr (if truthy dv then dv else .str "")
      some (
        if containsSub "speedometer" icon || containsSub "тис. км" txt then
          match firstDigitsVal (removeSpaces txt).toList with
          | some n => { acc with mileage := n }
          | none => acc
        else if containsSub "location" icon then { acc with loc := txt }
        else if containsSub "automat" icon || containsSub "transmission" icon then
          { acc with gear := txt }
        else if containsSub "fuel" icon then { acc with fuel := txt }
        else acc)
    | _ => none
  | _ => none

/-- The `basicInfo` loop (lines 307–318). -/
def procInfos : JsonList → InfoAcc → Option InfoAcc
  | .nil, acc => some acc
  | .cons info rest, acc =>
    match procInfo acc info with
    | none => none
    | some acc2 => procInfos rest acc2

/-- Build one `CarDTO` from a candidate object (the loop body, lines
263–332).  `none` models both explicit `continue`s (falsy id, zero price)
and any exception caught by the surrounding `try`. -/
def extractOne (d : JsonObj) : Option CarDTO :=
  let car_id := dictGet d "id" .null
  if ¬ truthy car_id then none
  else
    match extractPriceVal d with
    | none => none
    | some price =>
      if price = 0 then none
      else
        match pyInt car_id with
        | none => none
        | some idn =>
          match extractLink d car_id with
          | none => none
          | some link =>
            match extractImg d with
            | none => none
            | some img =>
              match (match dictGet d "basicInfo" (.arr .nil) with
                     | .arr l => procInfos l {}
                     | _ => some {}) with
              | none => none
              | some acc =>
                some { id := idn, title := pyStr (extractTitleTxt d), price_usd := price,
                       url := link, mileage := acc.mileage, image_url := img,
                       location := acc.loc, gearbox := acc.gear, fuel := acc.fuel }

/-- One step of the dedup dict build (line 335): Python dict assignment
keyed by `c.id` — an existing key keeps its position but takes the new
value, a new key is appended. -/
def upsertById (acc : List CarDTO) (c : CarDTO) : List CarDTO :=
  if acc.any (fun x => x.id == c.id) then acc.map (fun x => if x.id == c.id then c else x)
  else acc ++ [c]

/-- `{c.id: c for c in results}` then `.values()` (lines 335–336). -/
def dedupeById (cars : List CarDTO) : List CarDTO :=
  cars.foldl upsertById []

/-- `_extract_cars_from_pinia` from the parsed state object onward (lines
240–336): a falsy root (parse failure, or an empty state object) yields no
cars; otherwise collect candidates, build DTOs (exceptions skip one
candidate), dedupe by id. -/
def extract_cars_from_pinia (root : Json) : List CarDTO :=
  if ¬ truthy root then [] else dedupeById ((collectJson root).filterMap extractOne)

/-! ## Detail enricher (`_enrich_missing_details`, lines 338–374)

The per-item detail fetch (`_fetch_final_page`) is a network call; it is
modelled as an oracle `fetch : CarDTO → Option DetailData`, `none` standing
for a failed/timed-out fetch or a non-200 response (which leaves the car
unchanged).  Detail values are modelled at the `CarDTO` dataclass's declared
field types. -/

/-- The dict returned by `_fetch_final_page` (lines 407–410). -/
structure DetailData where
  title : String := ""
  price_usd : Option Int := none
  mileage_th : Option Int := none
  fuel : Option String := none
  gearbox : Option String := none
  location : Option String := none
  image_url : String := ""
deriving Repr, Inhabited, DecidableEq

/-- Truthiness of an optional string detail value (`None` and `""` are
falsy). -/
def optTruthy : Option String → Bool
  | none => false
  | some s => s != ""

/-- Truthiness of the optional `mileage_th` (`None` and `0` are falsy). -/
def optIntTruthy : Option Int → Bool
  | none => false
  | some v => v != 0

/-- `enrich_one` (lines 345–364): skip fully-populated cars, otherwise
fill exactly the fields that are still falsy from the fetched details.
The source does the conditional assignments one after another, but every
guard reads only the field it assigns, so the mutations touch disjoint
fields and the sequence is equivalent to this single record. -/
def enrich_one (fetch : CarDTO → Option DetailData) (car : CarDTO) : CarDTO :=
  if car.location ≠ "" ∧ car.gearbox ≠ "" ∧ car.fuel ≠ "" ∧ car.mileage ≠ 0 then car
  else
    match fetch car with
    | none => car
    | some details =>
      { id := car.id
        price_usd := car.price_usd
        url := car.url
        title :=
          if car.title = "" then
            if details.title ≠ "" then details.title else car.title
          else car.title
        image_url :=
          if ¬ truthy car.image_url then
            if details.image_url ≠ "" then Json.str details.image_url else car.image_url
          else car.image_url
        mileage :=
          if car.mileage = 0 ∧ optIntTruthy details.mileage_th then
            details.mileage_th.getD 0
          else car.mileage
        location :=
          if car.location = "" ∧ optTruthy details.location then details.location.getD ""
          else car.location
        gearbox :=
          if car.gearbox = "" ∧ optTruthy details.gearbox then details.gearbox.getD ""
          else car.gearbox
        fuel :=
          if car.fuel = "" ∧ optTruthy details.fuel then details.fuel.getD ""
          else car.fuel }

/-- The defaults pass (lines 369–372): location, gearbox and fuel still
empty become the placeholder dash (three independent conditional
assignments to distinct fields). -/
def apply_placeholders (car : CarDTO) : CarDTO :=
  { car with
      location := if car.location = "" then "—" else car.location
      gearbox := if car.gearbox = "" then "—" else car.gearbox
      fuel := if car.fuel = "" then "—" else car.fuel }

/-- `_enrich_missing_details` (lines 338–374): enrich each car
(`asyncio.gather` keeps list order), then apply the placeholder pass. -/
def enrich_missing_details (fetch : CarDTO → Option DetailData) (cars : List CarDTO) :
    List CarDTO :=
  (cars.map (enrich_one fetch)).map apply_placeholders

/-! ## Search query construction (`search_cars`, lines 167–183) -/

/-- The query parameters sent to the search endpoint: `brand.id[0]`,
`page` and `size` are always present, every other parameter is optional. -/
structure SearchQuery where
  brand_id : Int
  model_id : Option Int
  year_gte : Option Int
  year_lte : Option Int
  price_gte : Option Int
  price_lte : Option Int
  state_id : Option Int
  gearbox_id : Option Int
  fuel_id : Option Int
  page : Int
  size : Int
deriving Repr, DecidableEq

/-- Lines 167–183 of `search_cars`: the base params plus each conditional
parameter (`if model_id and model_id > 0`, `if year_from:` …). -/
def build_search_params (brand_id model_id year_from year_to price_from price_to
    region_id gearbox_id fuel_id : Int) : SearchQuery :=
  { brand_id := brand_id
    model_id := if model_id ≠ 0 ∧ model_id > 0 then some model_id else none
    year_gte := if year_from ≠ 0 then some year_from else none
    year_lte := if year_to ≠ 0 then some year_to else none
    price_gte := if price_from ≠ 0 then some price_from else none
    price_lte := if price_to ≠ 0 then some price_to else none
    state_id := if region_id ≠ 0 then some region_id else none
    gearbox_id := if gearbox_id ≠ 0 then some gearbox_id else none
    fuel_id := if fuel_id ≠ 0 then some fuel_id else none
    page := 0
    size := 20 }

/-! ## Scheduler: safety filter and delivery (`process_search`, lines 43–99) -/

/-- The two "any model" sentinel display names (line 52). -/
def sentinel_models : List String := ["Будь-яка", "Всі моделі"]

/-- The safety-catch filter (lines 49–60): applied only when
`model_name` is truthy and not a sentinel; keeps cars whose lowered title
contains the lowered model name. -/
def model_filter (model_name : Option String) (cars : List CarDTO) : List CarDTO :=
  match model_name with
  | some t =>
      if t ≠ "" ∧ t ∉ sentinel_models then
        cars.filter (fun car => containsSub (lowerStr t) (lowerStr car.title))
      else cars
  | none => cars

/-- The persisted seen-set: one `(user_id, car_id)` record per sighting. -/
abbrev SeenSet := List (Int × Int)

/-- `DatabaseRepo.is_car_seen` (repository.py lines 89–106):
`INSERT … ON CONFLICT (user_id, car_id) DO NOTHING`, returning `True` iff
the row already existed (no row inserted).  Returns the verdict and the
resulting seen-set. -/
def is_car_seen (s : SeenSet) (user_id car_id : Int) : Bool × SeenSet :=
  if (user_id, car_id) ∈ s then (true, s) else (false, s ++ [(user_id, car_id)])

/-- Fold an arbitrary sequence of further `is_car_seen` calls over a
seen-set. -/
def applySeenCalls (s : SeenSet) (calls : List (Int × Int)) : SeenSet :=
  calls.foldl (fun st uc => (is_car_seen st uc.1 uc.2).2) s

/-- The delivery loop of `process_search` (scheduler.py lines 72–99): for
each surviving car, check-and-mark seen; deliver (return) exactly the cars
whose check came back `False`. -/
def deliver_new (u : Int) (s : SeenSet) : List CarDTO → List CarDTO × SeenSet
  | [] => ([], s)
  | car :: rest =>
    let r1 := is_car_seen s u car.id
    let r2 := deliver_new u r1.2 rest
    if r1.1 then r2 else (car :: r2.1, r2.2)

/-! ## Reference caches (`get_brands` / `get_states` / `get_models`,
scraper.py lines 69–147)

The HTTP fetch is the boundary: `fetch = none` models a non-200 status or a
transport error, `fetch = some data` a 200 response with parsed body
`data`.  Normalisation failures (exceptions inside the `try`) also return
an empty list without touching the cache. -/

/-- A normalised `{name, id}` entry (the `name` value is stored as
fetched, unchecked). -/
structure RefEntry where
  name : Json
  id : Int
deriving Repr, DecidableEq

/-- A model entry: `get_models` stores `item["value"]` raw, without
`int()`. -/
structure ModelEntry where
  name : Json
  id : Json
deriving Repr, DecidableEq

/-- The class-level in-memory cache of `AutoRiaScraper` (lines 44–54). -/
structure ScraperCache where
  brands_cache : List RefEntry
  brands_last_update : Int
  states_cache : List RefEntry
  states_last_update : Int
  models_cache : List (Int × List ModelEntry)
deriving Repr, DecidableEq

/-- `CACHE_TTL` (line 54), seconds. -/
def CACHE_TTL : Int := 3600

/-- The brand normalisation loop (lines 87–92): keep items with truthy
`name` and truthy `value`-or-`id`; `int(val)` may raise (→ `none`). -/
def normalize_brand_items : JsonList → Option (List RefEntry)
  | .nil => some []
  | .cons item rest =>
    match item with
    | .obj fs =>
      let name := dictGet fs "name" .null
      let val := dictGet fs "value" (dictGet fs "id" .null)
      if truthy name ∧ truthy val then
        match pyInt val with
        | none => none
        | some n =>
          match normalize_brand_items rest with
          | none => none
          | some out => some (⟨name, n⟩ :: out)
      else normalize_brand_items rest
    | _ => none

/-- Brand normalisation of the whole response body (`for item in data`
raises on a non-list). -/
def normalize_brands : Json → Option (List RefEntry)
  | .arr items => normalize_brand_items items
  | _ => none

/-- `get_brands` (lines 69–101): cached result if fresh and non-empty,
otherwise fetch, normalise, replace cache and timestamp; any failure
returns `[]` with the cache untouched. -/
def get_brands (st : ScraperCache) (now : Int) (fetch : Option Json) :
    List RefEntry × ScraperCache :=
  if st.brands_cache ≠ [] ∧ now - st.brands_last_update < CACHE_TTL then
    (st.brands_cache, st)
  else
    match fetch with
    | none => ([], st)
    | some data =>
      match normalize_brands data with
      | none => ([], st)
      | some out => (out, { st with brands_cache := out, brands_last_update := now })

/-- The states comprehension (line 120): `int(i.get("value", i.get("id")))`
with no truthiness filter; a failing `int` raises (→ `none`). -/
def normalize_state_items : JsonList → Option (List RefEntry)
  | .nil => some []
  | .cons item rest =>
    match item with
    | .obj fs =>
      match pyInt (dictGet fs "value" (dictGet fs "id" .null)) with
      | none => none
      | some n =>
        match normalize_state_items rest with
        | none => none
        | some out => some (⟨dictGet fs "name" .null, n⟩ :: out)
    | _ => none

/-- State normalisation of the whole response body. -/
def normalize_states : Json → Option (List RefEntry)
  | .arr items => normalize_state_items items
  | _ => none

/-- `get_states` (lines 103–128). -/
def get_states (st : ScraperCache) (now : Int) (fetch : Option Json) :
    List RefEntry × ScraperCache :=
  if st.states_cache ≠ [] ∧ now - st.states_last_update < CACHE_TTL then
    (st.states_cache, st)
  else
    match fetch with
    | none => ([], st)
    | some data =>
      match normalize_states data with
      | none => ([], st)
      | some out => (out, { st with states_cache := out, states_last_update := now })

/-- The models comprehension (line 142): `item["name"]` / `item["value"]`
raise `KeyError` when absent (→ `none`); the id is stored raw. -/
def normalize_model_items : JsonList → Option (List ModelEntry)
  | .nil => some []
  | .cons item rest =>
    match item with
    | .obj fs =>
      match fs.lookup? "name", fs.lookup? "value" with
      | some n, some v =>
        match normalize_model_items rest with
        | none => none
        | some out => some (⟨n, v⟩ :: out)
      | _, _ => none
    | _ => none

/-- Model normalisation of the whole response body. -/
def normalize_models : Json → Option (List ModelEntry)
  | .arr items => normalize_model_items items
  | _ => none

/-- `brand_id in self._models_cache` / `self._models_cache[brand_id]`. -/
def lookupModels : List (Int × List ModelEntry) → Int → Option (List ModelEntry)
  | [], _ => none
  | (k, v) :: rest, b => if k == b then some v else lookupModels rest b

/-- `get_models` (lines 130–147): cached per brand with no TTL; a fetch or
normalisation failure returns `[]` without caching. -/
def get_models (st : ScraperCache) (brand_id : Int) (fetch : Option Json) :
    List ModelEntry × ScraperCache :=
  match lookupModels st.models_cache brand_id with
  | some ms => (ms, st)
  | none =>
    match fetch with
    | none => ([], st)
    | some data =>
      match normalize_models data with
      | none => ([], st)
      | some ms => (ms, { st with models_cache := st.models_cache ++ [(brand_id, ms)] })

/-! ## Seen-set lemmas -/

/-- `is_car_seen` never removes records. -/
theorem is_car_seen_mono {s : SeenSet} {u c : Int} (p : Int × Int) (hp : p ∈ s) :
    p ∈ (is_car_seen s u c).2 := by
  unfold is_car_seen
  split
  · exact hp
  · simp only [List.mem_append]
    exact Or.inl hp

/-- Any sequence of `is_car_seen` calls preserves existing records. -/
theorem applySeenCalls_mono (calls : List (Int × Int)) :
    ∀ {s : SeenSet} (p : Int × Int), p ∈ s → p ∈ applySeenCalls s calls := by
  induction calls with
  | nil => intro s p hp; simpa [applySeenCalls] using hp
  | cons x xs ih =>
      intro s p hp
      simp only [applySeenCalls, List.foldl_cons] at *
      exact ih p (is_car_seen_mono p hp)

/-- The checked pair is present after the call. -/
theorem is_car_seen_self_mem (s : SeenSet) (u c : Int) : (u, c) ∈ (is_car_seen s u c).2 := by
  unfold is_car_seen
  split
  · assumption
  · simp

/-- A `false` verdict means the pair was absent. -/
theorem is_car_seen_fst_false {s : SeenSet} {u c : Int} (h : (is_car_seen s u c).1 = false) :
    (u, c) ∉ s := by
  unfold is_car_seen at h
  intro hmem
  rw [if_pos hmem] at h
  simp at h

/-- A present pair checks `true`. -/
theorem is_car_seen_fst_true {s : SeenSet} {u c : Int} (h : (u, c) ∈ s) :
    (is_car_seen s u c).1 = true := by
  unfold is_car_seen
  rw [if_pos h]

/-- Every car delivered by the loop was absent from the seen-set the loop
started with. -/
theorem deliver_new_sound (u : Int) :
    ∀ (cars : List CarDTO) (s : SeenSet), ∀ car ∈ (deliver_new u s cars).1,
      (u, car.id) ∉ s := by
  intro cars
  induction cars with
  | nil => intro s car hcar; simp [deliver_new] at hcar
  | cons car rest ih =>
      intro s car2 hcar2
      simp only [deliver_new] at hcar2
      by_cases hseen : (is_car_seen s u car.id).1 = true
      · rw [if_pos hseen] at hcar2
        intro hmem
        exact ih (is_car_seen s u car.id).2 car2 hcar2 (is_car_seen_mono _ hmem)
      · rw [if_neg hseen] at hcar2
        rcases List.mem_cons.mp hcar2 with h | h
        · rw [h]
          refine is_car_seen_fst_false ?_
          revert hseen
          cases (is_car_seen s u car.id).1 <;> simp
        · intro hmem
          exact ih (is_car_seen s u car.id).2 car2 h (is_car_seen_mono _ hmem)

/-- The delivery loop never delivers the same listing id twice. -/
theorem deliver_new_nodup (u : Int) :
    ∀ (cars : List CarDTO) (s : SeenSet),
      ((deliver_new u s cars).1.map (fun c => c.id)).Nodup := by
  intro cars
  induction cars with
  | nil => intro s; simp [deliver_new]
  | cons car rest ih =>
      intro s
      simp only [deliver_new]
      by_cases hseen : (is_car_seen s u car.id).1 = true
      · rw [if_pos hseen]; exact ih _
      · rw [if_neg hseen]
        simp only [List.map_cons, List.nodup_cons]
        refine ⟨?_, ih _⟩
        intro hmem
        rcases List.mem_map.mp hmem with ⟨car2, hcar2, hid⟩
        have habs := deliver_new_sound u rest (is_car_seen s u car.id).2 car2 hcar2
        rw [hid] at habs
        exact habs (is_car_seen_self_mem s u car.id)

/-- Claim C1: the first `is_car_seen` call on a fresh `(user, listing)`
pair returns `false` and inserts the record; after that call — and after
any further calls — the same pair always checks `true`; and the
scheduler's delivery loop sends only listings whose check returned `false`
(absent from the initial seen-set), each id at most once. -/
theorem c1_seen_set_and_delivery (s : SeenSet) (u c : Int) (h : (u, c) ∉ s) :
    (is_car_seen s u c).1 = false ∧
    (∀ calls : List (Int × Int),
        (is_car_seen (applySeenCalls ((is_car_seen s u c).2) calls) u c).1 = true) ∧
    (∀ (u2 : Int) (s2 : SeenSet) (cars : List CarDTO),
        (∀ car ∈ (deliver_new u2 s2 cars).1, (u2, car.id) ∉ s2) ∧
        ((deliver_new u2 s2 cars).1.map (fun car => car.id)).Nodup) := by
  refine ⟨?_, ?_, ?_⟩
  · unfold is_car_seen
    rw [if_neg h]
  · intro calls
    exact is_car_seen_fst_true
      (applySeenCalls_mono calls _ (is_car_seen_self_mem s u c))
  · intro u2 s2 cars
    exact ⟨deliver_new_sound u2 cars s2, deliver_new_nodup u2 cars s2⟩

/-- Witness for C1 at a concrete fresh pair and a concrete delivery. -/
theorem c1_seen_set_and_delivery_witness :
    (is_car_seen [] 7 9).1 = false ∧
    (is_car_seen (applySeenCalls ((is_car_seen [] 7 9).2) [(1, 2), (7, 9)]) 7 9).1 = true :=
  have h := c1_seen_set_and_delivery [] 7 9 (by decide)
  ⟨h.1, h.2.1 [(1, 2), (7, 9)]⟩

/-! ## Scheduler safety filter -/

/-- Claim C3: with a concrete model name (non-empty, not a sentinel) the
safety filter keeps exactly the listings whose title contains the model
name case-insensitively and drops all others; with a sentinel model name
the filter is skipped and every listing passes through. -/
theorem c3_safety_filter (t : String) (cars : List CarDTO)
    (h1 : t ≠ "") (h2 : t ∉ sentinel_models) :
    model_filter (some t) cars
      = cars.filter (fun car => containsSub (lowerStr t) (lowerStr car.title)) ∧
    (∀ car ∈ model_filter (some t) cars,
        car ∈ cars ∧ containsSub (lowerStr t) (lowerStr car.title) = true) ∧
    (∀ car ∈ cars, containsSub (lowerStr t) (lowerStr car.title) = true →
        car ∈ model_filter (some t) cars) ∧
    (∀ u ∈ sentinel_models, ∀ cs : List CarDTO, model_filter (some u) cs = cs) := by
  have hfilter : model_filter (some t) cars
      = cars.filter (fun car => containsSub (lowerStr t) (lowerStr car.title)) := by
    simp only [model_filter]
    rw [if_pos ⟨h1, h2⟩]
  refine ⟨hfilter, ?_, ?_, ?_⟩
  · intro car hcar
    rw [hfilter] at hcar
    exact List.mem_filter.mp hcar
  · intro car hcar hsub
    rw [hfilter]
    exact List.mem_filter.mpr ⟨hcar, hsub⟩
  · intro u hu cs
    simp only [model_filter]
    rw [if_neg]
    intro hcond
    exact hcond.2 hu

/-- A listing titled like the subscribed model (spec §8's end-to-end
example). -/
def carCamry : CarDTO := { id := 1, title := "Toyota Camry 2015", price_usd := 5000, url := "u1" }

/-- A listing for an unrelated model. -/
def carCorolla : CarDTO := { id := 2, title := "Toyota Corolla 2016", price_usd := 6000, url := "u2" }

/-- Witness for C3: model "Camry" keeps the Camry listing and drops the
Corolla listing; the sentinel "Будь-яка" passes both through. -/
theorem c3_safety_filter_witness :
    model_filter (some "Camry") [carCamry, carCorolla] = [carCamry] ∧
    model_filter (some "Будь-яка") [carCamry, carCorolla] = [carCamry, carCorolla] := by
  have h := c3_safety_filter "Camry" [carCamry, carCorolla] (by decide) (by decide)
  constructor
  · rw [h.1]
    decide
  · exact h.2.2.2 "Будь-яка" (by decide) [carCamry, carCorolla]

/-- Claim C10: the safety filter is also skipped when the subscription's
model name is absent (`None`) or the empty string, so every found listing
passes through to the seen-check stage. -/
theorem c10_filter_skipped_without_model_name (cars : List CarDTO) :
    model_filter none cars = cars ∧ model_filter (some "") cars = cars := by
  constructor
  · rfl
  · simp only [model_filter]
    rw [if_neg]
    intro hcond
    exact hcond.1 rfl

/-! ## Search query construction -/

/-- Counterexample for C4: `model.id[0]` is governed by
`if model_id and model_id > 0`, not by non-zeroness — at `model_id = -1`
the parameter is omitted although the value is non-zero. -/
theorem c4_counterexample :
    (build_search_params 79 (-1) 0 0 0 0 0 0 0).model_id = none ∧ ((-1 : Int) ≠ 0) := by
  constructor
  · rfl
  · decide

/-- Claim C4 (amended): the brand parameter is always included; the
year/price/region/gearbox/fuel parameters are included iff non-zero; the
model parameter is included iff strictly positive. -/
theorem c4_query_param_inclusion (b m yf yt pf pt r g f : Int) :
    (build_search_params b m yf yt pf pt r g f).brand_id = b ∧
    (build_search_params b m yf yt pf pt r g f).page = 0 ∧
    (build_search_params b m yf yt pf pt r g f).size = 20 ∧
    ((build_search_params b m yf yt pf pt r g f).model_id = some m ↔ 0 < m) ∧
    ((build_search_params b m yf yt pf pt r g f).year_gte = some yf ↔ yf ≠ 0) ∧
    ((build_search_params b m yf yt pf pt r g f).year_lte = some yt ↔ yt ≠ 0) ∧
    ((build_search_params b m yf yt pf pt r g f).price_gte = some pf ↔ pf ≠ 0) ∧
    ((build_search_params b m yf yt pf pt r g f).price_lte = some pt ↔ pt ≠ 0) ∧
    ((build_search_params b m yf yt pf pt r g f).state_id = some r ↔ r ≠ 0) ∧
    ((build_search_params b m yf yt pf pt r g f).gearbox_id = some g ↔ g ≠ 0) ∧
    ((build_search_params b m yf yt pf pt r g f).fuel_id = some f ↔ f ≠ 0) := by
  unfold build_search_params
  refine ⟨rfl, rfl, rfl, ?_, ?_, ?_, ?_, ?_, ?_, ?_, ?_⟩ <;>
    · dsimp only
      split_ifs <;> simp_all <;> omega

/-! ## Reference caches -/

/-- Claim C9: when the underlying fetch fails (non-success status or
transport error) and the cache cannot answer (empty/stale collection, or
an unknown brand for the model cache), each cache operation returns the
empty sequence and leaves the whole cache state — collections and
timestamps — unchanged, so a later call retries the fetch. -/
theorem c9_fetch_failure_leaves_cache_unchanged (st : ScraperCache) (now bid : Int)
    (hb : st.brands_cache = [] ∨ CACHE_TTL ≤ now - st.brands_last_update)
    (hs : st.states_cache = [] ∨ CACHE_TTL ≤ now - st.states_last_update)
    (hm : lookupModels st.models_cache bid = none) :
    get_brands st now none = ([], st) ∧
    get_states st now none = ([], st) ∧
    get_models st bid none = ([], st) := by
  refine ⟨?_, ?_, ?_⟩
  · unfold get_brands
    rw [if_neg]
    rintro ⟨h1, h2⟩
    rcases hb with h | h
    · exact h1 h
    · omega
  · unfold get_states
    rw [if_neg]
    rintro ⟨h1, h2⟩
    rcases hs with h | h
    · exact h1 h
    · omega
  · unfold get_models
    rw [hm]

/-- Witness for C9 at the initial (empty, never-refreshed) cache. -/
theorem c9_fetch_failure_witness :
    get_brands ⟨[], 0, [], 0, []⟩ 0 none = ([], ⟨[], 0, [], 0, []⟩) ∧
    get_states ⟨[], 0, [], 0, []⟩ 0 none = ([], ⟨[], 0, [], 0, []⟩) ∧
    get_models ⟨[], 0, [], 0, []⟩ 5 none = ([], ⟨[], 0, [], 0, []⟩) :=
  c9_fetch_failure_leaves_cache_unchanged ⟨[], 0, [], 0, []⟩ 0 5
    (Or.inl rfl) (Or.inl rfl) rfl

/-! ## Dedupe-by-id lemmas -/

/-- A `false` boolean is not `true`. -/
theorem bool_ne_true {b : Bool} (h : b = false) : ¬ b = true := by simp [h]

/-- Replacing the entry with `c.id` does not change the id sequence. -/
theorem upsert_ids_replace (acc : List CarDTO) (c : CarDTO) :
    (acc.map (fun x => if x.id == c.id then c else x)).map (fun x => x.id)
      = acc.map (fun x => x.id) := by
  rw [List.map_map]
  refine List.map_congr_left ?_
  intro a _
  by_cases h : a.id = c.id
  · simp [h]
  · simp [h]

/-- `upsertById` preserves distinctness of ids. -/
theorem upsert_idsNodup (acc : List CarDTO) (c : CarDTO)
    (h : (acc.map (fun x => x.id)).Nodup) :
    ((upsertById acc c).map (fun x => x.id)).Nodup := by
  unfold upsertById
  split
  · rw [upsert_ids_replace]; exact h
  · rename_i hany
    rw [List.map_append]
    simp only [List.map_cons, List.map_nil]
    rw [List.nodup_append]
    refine ⟨h, List.nodup_singleton _, ?_⟩
    intro a ha hb
    simp only [List.mem_singleton] at hb
    rcases List.mem_map.mp ha with ⟨x, hx, hxa⟩
    exact hany (List.any_eq_true.mpr ⟨x, hx, by simp [hxa, hb]⟩)

/-- Filtering for a different id ignores a replacement. -/
theorem filter_replace_ne (acc : List CarDTO) (c : CarDTO) (i : Int)
    (hne : (c.id == i) = false) :
    (acc.map (fun x => if x.id == c.id then c else x)).filter (fun x => x.id == i)
      = acc.filter (fun x => x.id == i) := by
  induction acc with
  | nil => rfl
  | cons a rest ih =>
      rw [List.map_cons]
      by_cases ha : a.id = c.id
      · rw [if_pos (by simp [ha])]
        have hane : (a.id == i) = false := by simp [ha]; simpa using hne
        rw [List.filter_cons, List.filter_cons, if_neg (bool_ne_true hne),
            if_neg (bool_ne_true hane)]
        exact ih
      · rw [if_neg (by simp [ha])]
        rw [List.filter_cons, List.filter_cons]
        by_cases hai : (a.id == i) = true
        · rw [if_pos hai, if_pos hai, ih]
        · have : (a.id == i) = false := by revert hai; cases (a.id == i) <;> simp
          rw [if_neg (bool_ne_true this), if_neg (bool_ne_true this)]
          exact ih

/-- With distinct ids and `c.id` present, the replacement is the unique
survivor of filtering for `c.id`. -/
theorem filter_replace_eq (acc : List CarDTO) (c : CarDTO)
    (hnd : (acc.map (fun x => x.id)).Nodup)
    (hmem : (acc.any (fun x => x.id == c.id)) = true) :
    (acc.map (fun x => if x.id == c.id then c else x)).filter (fun x => x.id == c.id)
      = [c] := by
  induction acc with
  | nil => simp at hmem
  | cons a rest ih =>
      simp only [List.map_cons, List.nodup_cons] at hnd
      rw [List.map_cons]
      by_cases ha : a.id = c.id
      · rw [if_pos (by simp [ha])]
        rw [List.filter_cons, if_pos (by simp)]
        have hrest : (rest.map (fun x => if x.id == c.id then c else x)).filter
            (fun x => x.id == c.id) = [] := by
          rw [List.filter_eq_nil_iff]
          intro b hb
          rcases List.mem_map.mp hb with ⟨x, hx, hxb⟩
          have hxne : x.id ≠ c.id := by
            intro hcontra
            exact hnd.1 (List.mem_map.mpr ⟨x, hx, by rw [hcontra, ha]⟩)
          rw [if_neg (by simp [hxne])] at hxb
          subst hxb
          simp [hxne]
        rw [hrest]
      · rw [if_neg (by simp [ha])]
        rw [List.filter_cons, if_neg (by simp [ha])]
        refine ih hnd.2 ?_
        simp only [List.any_cons] at hmem
        rcases Bool.or_eq_true_iff.mp hmem with h | h
        · exact absurd (by simpa using h) ha
        · exact h

/-- The filter image of one `upsertById` step, target id distinct from the
inserted car's. -/
theorem upsert_filter_ne (acc : List CarDTO) (c : CarDTO) (i : Int)
    (hne : (c.id == i) = false) :
    (upsertById acc c).filter (fun x => x.id == i) = acc.filter (fun x => x.id == i) := by
  unfold upsertById
  split
  · exact filter_replace_ne acc c i hne
  · rw [List.filter_append, List.filter_cons, if_neg (bool_ne_true hne), List.filter_nil,
        List.append_nil]

/-- The filter image of one `upsertById` step at the inserted car's id:
exactly that car survives. -/
theorem upsert_filter_eq (acc : List CarDTO) (c : CarDTO)
    (hnd : (acc.map (fun x => x.id)).Nodup) :
    (upsertById acc c).filter (fun x => x.id == c.id) = [c] := by
  unfold upsertById
  split
  · exact filter_replace_eq acc c hnd (by assumption)
  · rename_i hany
    rw [List.filter_append, List.filter_cons, if_pos (by simp), List.filter_nil]
    have : acc.filter (fun x => x.id == c.id) = [] := by
      rw [List.filter_eq_nil_iff]
      intro b hb hcontra
      exact hany (List.any_eq_true.mpr ⟨b, hb, hcontra⟩)
    rw [this, List.nil_append]

/-- Distinct ids are an invariant of the dedup fold. -/
theorem foldl_upsert_nodup :
    ∀ (cars acc : List CarDTO), (acc.map (fun x => x.id)).Nodup →
      ((List.foldl upsertById acc cars).map (fun x => x.id)).Nodup := by
  intro cars
  induction cars with
  | nil => intro acc h; simpa using h
  | cons car rest ih =>
      intro acc h
      rw [List.foldl_cons]
      exact ih _ (upsert_idsNodup acc car h)

/-- The dedup fold keeps, for each id, exactly the last matching input
record (or the accumulator's survivors when the id never occurs). -/
theorem foldl_upsert_filter (i : Int) :
    ∀ (cars acc : List CarDTO), (acc.map (fun x => x.id)).Nodup →
      (List.foldl upsertById acc cars).filter (fun x => x.id == i)
        = (match (cars.filter (fun x => x.id == i)).getLast? with
           | some c => [c]
           | none => acc.filter (fun x => x.id == i)) := by
  intro cars
  induction cars with
  | nil => intro acc _; simp
  | cons car rest ih =>
      intro acc hnd
      rw [List.foldl_cons, ih _ (upsert_idsNodup acc car hnd)]
      by_cases hc : (car.id == i) = true
      · rw [List.filter_cons, if_pos hc]
        cases hrf : rest.filter (fun x => x.id == i) with
        | nil =>
            simp only [hrf, List.getLast?_nil, List.getLast?_singleton]
            have hci : car.id = i := by simpa using hc
            rw [← hci]
            exact upsert_filter_eq acc car hnd
        | cons x xs =>
            rw [List.getLast?_cons_cons]
            cases hy : (x :: xs).getLast? with
            | none => simp at hy
            | some y => rfl
      · have hcf : (car.id == i) = false := by revert hc; cases (car.id == i) <;> simp
        rw [List.filter_cons, if_neg (bool_ne_true hcf)]
        cases hrf : rest.filter (fun x => x.id == i) with
        | nil =>
            simp only [hrf, List.getLast?_nil]
            exact upsert_filter_ne acc car i hcf
        | cons x xs => rfl

/-- Claim C7: the extractor's output has at most one listing per id; when
several candidates share an id, exactly one output record carries that id
and it is the last-discovered candidate's record (Python dict
comprehension semantics: last assignment wins). -/
theorem c7_dedupe_by_id_last_wins (cars : List CarDTO) (i : Int) :
    ((dedupeById cars).map (fun c => c.id)).Nodup ∧
    (dedupeById cars).filter (fun c => c.id == i)
      = ((cars.filter (fun c => c.id == i)).getLast?).toList := by
  constructor
  · exact foldl_upsert_nodup cars [] (by simp)
  · unfold dedupeById
    rw [foldl_upsert_filter i cars [] (by simp)]
    cases (cars.filter (fun c => c.id == i)).getLast? <;> simp

/-! ## Extractor output lemmas (claim C2) -/

/-- A candidate with no `id` key is skipped (`if not car_id: continue`). -/
theorem extractOne_none_of_no_id (d : JsonObj) (h : hasKey d "id" = false) :
    extractOne d = none := by
  unfold hasKey at h
  cases hl : d.lookup? "id" with
  | some v => rw [hl] at h; simp at h
  | none =>
      unfold extractOne
      simp [dictGet, hl, truthy]

/-- A candidate whose extracted price is `0` is skipped
(`if not price: continue`). -/
theorem extractOne_none_of_zero_price (d : JsonObj) (h : extractPriceVal d = some 0) :
    extractOne d = none := by
  unfold extractOne
  rw [h]
  by_cases hc : truthy (dictGet d "id" Json.null) = true
  · simp [hc]
  · simp [hc]

/-- Every produced DTO carries the (non-zero) extracted price. -/
theorem extractOne_price_ne_zero {d : JsonObj} {car : CarDTO}
    (h : extractOne d = some car) : car.price_usd ≠ 0 := by
  by_cases ht : truthy (dictGet d "id" Json.null) = true
  · cases hp : extractPriceVal d with
    | none => simp [extractOne, ht, hp] at h
    | some price =>
        by_cases hz : price = 0
        · subst hz; simp [extractOne, ht, hp] at h
        · cases hid : pyInt (dictGet d "id" Json.null) with
          | none => simp [extractOne, ht, hp, hz, hid] at h
          | some idn =>
            cases hlink : extractLink d (dictGet d "id" Json.null) with
            | none => simp [extractOne, ht, hp, hz, hid, hlink] at h
            | some link =>
              cases himg : extractImg d with
              | none => simp [extractOne, ht, hp, hz, hid, hlink, himg] at h
              | some img =>
                cases hinfo : (match dictGet d "basicInfo" (Json.arr JsonList.nil) with
                               | Json.arr l => procInfos l {}
                               | _ => some {}) with
                | none => simp [extractOne, ht, hp, hz, hid, hlink, himg, hinfo] at h
                | some acc =>
                    simp [extractOne, ht, hp, hz, hid, hlink, himg, hinfo] at h
                    rw [← h]
                    exact hz
  · simp [extractOne, ht] at h

/-- `upsertById` introduces no record other than the inserted one. -/
theorem mem_upsert {x : CarDTO} {acc : List CarDTO} {c : CarDTO}
    (h : x ∈ upsertById acc c) : x ∈ acc ∨ x = c := by
  unfold upsertById at h
  split at h
  · rcases List.mem_map.mp h with ⟨a, ha, hax⟩
    by_cases hid : (a.id == c.id) = true
    · rw [if_pos hid] at hax; exact Or.inr hax.symm
    · rw [if_neg hid] at hax; exact Or.inl (hax ▸ ha)
  · rcases List.mem_append.mp h with h | h
    · exact Or.inl h
    · exact Or.inr (List.mem_singleton.mp h)

/-- Membership in the dedup fold comes from the accumulator or the input. -/
theorem mem_foldl_upsert :
    ∀ (l acc : List CarDTO) (x : CarDTO), x ∈ List.foldl upsertById acc l →
      x ∈ acc ∨ x ∈ l := by
  intro l
  induction l with
  | nil => intro acc x h; exact Or.inl (by simpa using h)
  | cons c rest ih =>
      intro acc x h
      rw [List.foldl_cons] at h
      rcases ih _ x h with h2 | h2
      · rcases mem_upsert h2 with h3 | h3
        · exact Or.inl h3
        · exact Or.inr (h3 ▸ List.mem_cons_self c rest)
      · exact Or.inr (List.mem_cons_of_mem c h2)

/-- Every deduped record is one of the input records. -/
theorem mem_dedupeById {x : CarDTO} {l : List CarDTO} (h : x ∈ dedupeById l) : x ∈ l := by
  rcases mem_foldl_upsert l [] x h with h2 | h2
  · simp at h2
  · exact h2

/-- Claim C2: a candidate object lacking an `id` key, or whose extracted
price is zero (or absent, which extracts as zero), contributes nothing to
the extractor's output; consequently every listing in the output has a
non-zero price. -/
theorem c2_id_and_price_required (root : Json) :
    (∀ d ∈ collectJson root,
        (hasKey d "id" = false ∨ extractPriceVal d = some 0) → extractOne d = none) ∧
    (∀ car ∈ extract_cars_from_pinia root, car.price_usd ≠ 0) := by
  constructor
  · intro d _ h
    rcases h with h | h
    · exact extractOne_none_of_no_id d h
    · exact extractOne_none_of_zero_price d h
  · intro car hcar
    unfold extract_cars_from_pinia at hcar
    split at hcar
    · simp at hcar
    · rcases List.mem_filterMap.mp (mem_dedupeById hcar) with ⟨d, _, hd⟩
      exact extractOne_price_ne_zero hd

/-- The spec §8 end-to-end state: one valid candidate and one zero-price
candidate. -/
def exCandValid : JsonObj := JsonObj.ofList
  [("id", .num 1), ("price", jobj [("USD", .num 5000)]), ("title", .str "Toyota Camry 2015"),
   ("basicInfo", jarr [jobj [("content", .str "120 тис. км"),
                             ("icon", jobj [("data", .str "speedometer")])]])]

/-- A candidate whose `USD` price is zero. -/
def exCandZeroPrice : JsonObj := JsonObj.ofList
  [("id", .num 2), ("price", jobj [("USD", .num 0)]), ("title", .str "Invalid")]

/-- A search-state tree holding the two candidates. -/
def exState : Json := jobj [("search", jarr [.obj exCandValid, .obj exCandZeroPrice])]

/-- Witness for C2 on the spec §8 example: the zero-price candidate is
collected but dropped, and the single produced listing has a non-zero
price. -/
theorem c2_id_and_price_required_witness :
    extractOne exCandZeroPrice = none ∧
    ({ id := 1, title := "Toyota Camry 2015", price_usd := 5000,
       url := "https://auto.ria.com/uk/auto_1.html", mileage := 120 } : CarDTO).price_usd ≠ 0 := by
  have h := c2_id_and_price_required exState
  refine ⟨h.1 exCandZeroPrice (by decide) (Or.inr (by decide)), h.2 _ ?_⟩
  have hout : extract_cars_from_pinia exState
      = [{ id := 1, title := "Toyota Camry 2015", price_usd := 5000,
           url := "https://auto.ria.com/uk/auto_1.html", mileage := 120 }] := by decide
  rw [hout]
  exact List.mem_singleton.mpr rfl

/-! ## Enricher frame lemmas (claims C5 and C8) -/

/-- `b` agrees with `a` on every field that was already present in `a`
(non-empty string, truthy image, non-zero mileage), and on the fields the
enricher never assigns at all (`id`, `price_usd`, `url`). -/
def preserves_present (a b : CarDTO) : Prop :=
  b.id = a.id ∧ b.price_usd = a.price_usd ∧ b.url = a.url ∧
  (a.title ≠ "" → b.title = a.title) ∧
  (truthy a.image_url = true → b.image_url = a.image_url) ∧
  (a.mileage ≠ 0 → b.mileage = a.mileage) ∧
  (a.location ≠ "" → b.location = a.location) ∧
  (a.gearbox ≠ "" → b.gearbox = a.gearbox) ∧
  (a.fuel ≠ "" → b.fuel = a.fuel)

/-- `preserves_present` is reflexive. -/
theorem preserves_present_refl (a : CarDTO) : preserves_present a a := by
  unfold preserves_present
  simp

/-- `preserves_present` composes: preserved fields stay present, so a
second preserving pass keeps them too. -/
theorem preserves_present_trans {a b c : CarDTO}
    (h1 : preserves_present a b) (h2 : preserves_present b c) : preserves_present a c := by
  obtain ⟨i1, p1, u1, t1, m1, k1, l1, g1, f1⟩ := h1
  obtain ⟨i2, p2, u2, t2, m2, k2, l2, g2, f2⟩ := h2
  refine ⟨i2.trans i1, p2.trans p1, u2.trans u1, ?_, ?_, ?_, ?_, ?_, ?_⟩
  · intro h; rw [t2 (by rw [t1 h]; exact h), t1 h]
  · intro h; rw [m2 (by rw [m1 h]; exact h), m1 h]
  · intro h; rw [k2 (by rw [k1 h]; exact h), k1 h]
  · intro h; rw [l2 (by rw [l1 h]; exact h), l1 h]
  · intro h; rw [g2 (by rw [g1 h]; exact h), g1 h]
  · intro h; rw [f2 (by rw [f1 h]; exact h), f1 h]

/-- The per-car enrichment only fills fields that were falsy. -/
theorem enrich_one_frame (fetch : CarDTO → Option DetailData) (a : CarDTO) :
    preserves_present a (enrich_one fetch a) := by
  unfold enrich_one
  by_cases hfull : a.location ≠ "" ∧ a.gearbox ≠ "" ∧ a.fuel ≠ "" ∧ a.mileage ≠ 0
  · rw [if_pos hfull]; exact preserves_present_refl a
  · rw [if_neg hfull]
    cases hf : fetch a with
    | none => exact preserves_present_refl a
    | some details =>
        unfold preserves_present
        refine ⟨rfl, rfl, rfl, ?_, ?_, ?_, ?_, ?_, ?_⟩ <;> intro h <;> simp [h]

/-- The placeholder pass only fills fields that were empty. -/
theorem apply_placeholders_frame (a : CarDTO) : preserves_present a (apply_placeholders a) := by
  unfold preserves_present apply_placeholders
  refine ⟨rfl, rfl, rfl, ?_, ?_, ?_, ?_, ?_, ?_⟩ <;> intro h <;> simp [h]

/-- After the placeholder pass, location, gearbox and fuel are never the
empty string. -/
theorem apply_placeholders_nonempty (b : CarDTO) :
    (apply_placeholders b).location ≠ "" ∧ (apply_placeholders b).gearbox ≠ "" ∧
      (apply_placeholders b).fuel ≠ "" := by
  unfold apply_placeholders
  refine ⟨?_, ?_, ?_⟩ <;> dsimp only <;> split_ifs <;> simp_all

/-- Claim C8: the enricher returns exactly as many listings, in the same
order (position `i` of the output enriches position `i` of the input),
and never changes a field that was already present — only fields the
extractor left blank may be filled. -/
theorem c8_enricher_same_length_order_frame (fetch : CarDTO → Option DetailData)
    (cars : List CarDTO) :
    (enrich_missing_details fetch cars).length = cars.length ∧
    ∀ i (h1 : i < cars.length) (h2 : i < (enrich_missing_details fetch cars).length),
      preserves_present cars[i] (enrich_missing_details fetch cars)[i] := by
  constructor
  · simp [enrich_missing_details]
  · intro i h1 h2
    have hi : (enrich_missing_details fetch cars)[i]
        = apply_placeholders (enrich_one fetch cars[i]) := by
      simp [enrich_missing_details]
    rw [hi]
    exact preserves_present_trans (enrich_one_frame fetch _) (apply_placeholders_frame _)

/-- A fully-populated listing (used to witness the frame property). -/
def carFull : CarDTO :=
  { id := 3, title := "BMW X5", price_usd := 20000, url := "u3", mileage := 90,
    image_url := Json.str "http://img", location := "Львів", gearbox := "Автомат",
    fuel := "Дизель" }

/-- Witness for C8 at a concrete populated car and a fetch that would
offer conflicting details: nothing changes. -/
theorem c8_enricher_frame_witness :
    (enrich_missing_details
        (fun _ => some { title := "Other", location := some "Elsewhere" }) [carFull]).length = 1 ∧
    preserves_present carFull
      (apply_placeholders (enrich_one
        (fun _ => some { title := "Other", location := some "Elsewhere" }) carFull)) := by
  have h := c8_enricher_same_length_order_frame
    (fun _ => some { title := "Other", location := some "Elsewhere" }) [carFull]
  refine ⟨by simpa using h.1, ?_⟩
  have h2 := h.2 0 (by decide) (by simp [enrich_missing_details])
  simpa [enrich_missing_details] using h2

/-- A listing the extractor left without image, location, gearbox or
fuel. -/
def carSparse : CarDTO := { id := 1, title := "T", price_usd := 5, url := "u" }

/-- Counterexample for C5: after enrichment (here with a failing detail
fetch, which legitimately leaves the car unchanged), the image-URL field
of the returned listing is still the empty string — not every empty field
is replaced by the placeholder dash. -/
theorem c5_counterexample_image_left_empty :
    (enrich_missing_details (fun _ => none) [carSparse]).map (fun c => c.image_url)
      = [Json.str ""] := by decide

/-- Claim C5 (amended): after the enricher returns, the location, gearbox
and fuel fields of every returned listing are non-empty (still-empty ones
were set to the placeholder dash); other fields, such as the image URL,
may remain empty. -/
theorem c5_placeholder_dash_fields (fetch : CarDTO → Option DetailData) (cars : List CarDTO) :
    ∀ car ∈ enrich_missing_details fetch cars,
      car.location ≠ "" ∧ car.gearbox ≠ "" ∧ car.fuel ≠ "" := by
  intro car hcar
  unfold enrich_missing_details at hcar
  rcases List.mem_map.mp hcar with ⟨b, _, rfl⟩
  exact apply_placeholders_nonempty b

/-- Witness for C5's amended claim on the sparse car with a failing
fetch. -/
theorem c5_placeholder_dash_fields_witness :
    (apply_placeholders (enrich_one (fun _ => none) carSparse)).location ≠ "" ∧
    (apply_placeholders (enrich_one (fun _ => none) carSparse)).gearbox ≠ "" ∧
    (apply_placeholders (enrich_one (fun _ => none) carSparse)).fuel ≠ "" := by
  have h := c5_placeholder_dash_fields (fun _ => none) [carSparse]
  have hmem : apply_placeholders (enrich_one (fun _ => none) carSparse)
      ∈ enrich_missing_details (fun _ => none) [carSparse] := by
    simp [enrich_missing_details]
  exact h _ hmem

/-! ## Candidate classification lemmas (claim C6)

The candidate heuristic demands `"USD" in str(obj["price"])`; the decimal
string of a bare number never contains `"USD"`, so an object with a bare
numeric price is never collected, and the bare-numeric branch of
`extractPriceVal` is unreachable for collected candidates. -/

/-- `Char.ofNat (48 + m)` is a decimal digit character for `m < 10`. -/
theorem digit_char_isDigit (m : Nat) (h : m < 10) : (Char.ofNat (48 + m)).isDigit = true := by
  interval_cases m <;> decide

/-- Every character produced by the decimal renderer is a digit. -/
theorem natDigitsAux_digits :
    ∀ (fuel n : Nat) (acc : List Char), (∀ c ∈ acc, c.isDigit = true) →
      ∀ c ∈ natDigitsAux fuel n acc, c.isDigit = true := by
  intro fuel
  induction fuel with
  | zero => intro n acc hacc c hc; exact hacc c hc
  | succ fuel ih =>
      intro n acc hacc c hc
      unfold natDigitsAux at hc
      have hd : (Char.ofNat (48 + n % 10)).isDigit = true :=
        digit_char_isDigit (n % 10) (Nat.mod_lt _ (by omega))
      split at hc
      · rcases List.mem_cons.mp hc with h | h
        · rw [h]; exact hd
        · exact hacc c h
      · refine ih (n / 10) _ ?_ c hc
        intro c2 hc2
        rcases List.mem_cons.mp hc2 with h | h
        · rw [h]; exact hd
        · exact hacc c2 h

/-- Characters of `str(n)` for an integer: digits, possibly a minus
sign. -/
theorem intRepr_chars (n : Int) :
    ∀ c ∈ (intRepr n).toList, c.isDigit = true ∨ c = '-' := by
  unfold intRepr natRepr
  split
  · intro c hc
    have hsplit : (("-" : String) ++ ⟨natDigitsAux (n.natAbs + 1) n.natAbs []⟩).toList
        = '-' :: natDigitsAux (n.natAbs + 1) n.natAbs [] := rfl
    rw [hsplit] at hc
    rcases List.mem_cons.mp hc with h | h
    · exact Or.inr h
    · exact Or.inl (natDigitsAux_digits _ _ [] (by simp) c h)
  · intro c hc
    exact Or.inl (natDigitsAux_digits _ _ [] (by simp) c hc)

/-- A needle starting with `'U'` cannot occur in a string without
`'U'`. -/
theorem subAux_U_false (rest : List Char) :
    ∀ (l : List Char), (∀ c ∈ l, c ≠ 'U') → subAux ('U' :: rest) l = false := by
  intro l
  induction l with
  | nil => intro _; rfl
  | cons b t ih =>
      intro hall
      have hb : ('U' == b) = false := by
        have hne := hall b (List.mem_cons_self b t)
        simpa using (Ne.symm hne)
      unfold subAux hasPre
      rw [hb]
      simp only [Bool.false_and, Bool.false_or]
      exact ih (fun c hc => hall c (List.mem_cons_of_mem b hc))

/-- `"USD"` never occurs in the decimal string of an integer. -/
theorem containsSub_USD_intRepr (n : Int) : containsSub "USD" (intRepr n) = false := by
  unfold containsSub
  have h1 : ("USD" : String).toList = 'U' :: ['S', 'D'] := rfl
  rw [h1]
  refine subAux_U_false _ _ ?_
  intro c hc
  rcases intRepr_chars n c hc with h | h
  · intro hcontra; rw [hcontra] at h; exact absurd h (by decide)
  · rw [h]; decide

mutual
/-- Every object collected from a JSON value passes the candidate
heuristic. -/
theorem collectJson_sound : ∀ (j : Json), ∀ fs ∈ collectJson j, isCand fs = true := by
  intro j
  match j with
  | .null => intro fs h; simp [collectJson] at h
  | .bool b => intro fs h; simp [collectJson] at h
  | .num n => intro fs h; simp [collectJson] at h
  | .str s => intro fs h; simp [collectJson] at h
  | .arr items => intro fs h; exact collectItems_sound items fs h
  | .obj fields =>
      intro fs h
      simp only [collectJson] at h
      by_cases hc : isCand fields = true
      · rw [if_pos hc] at h
        rw [List.mem_singleton.mp h]
        exact hc
      · rw [if_neg hc] at h
        exact collectFields_sound fields fs h
/-- Every object collected from an array's items passes the heuristic. -/
theorem collectItems_sound : ∀ (l : JsonList), ∀ fs ∈ collectItems l, isCand fs = true := by
  intro l
  match l with
  | .nil => intro fs h; simp [collectItems] at h
  | .cons hd tl =>
      intro fs h
      simp only [collectItems, List.mem_append] at h
      rcases h with h | h
      · exact collectJson_sound hd fs h
      · exact collectItems_sound tl fs h
/-- Every object collected from an object's values passes the heuristic. -/
theorem collectFields_sound : ∀ (o : JsonObj), ∀ fs ∈ collectFields o, isCand fs = true := by
  intro o
  match o with
  | .nil => intro fs h; simp [collectFields] at h
  | .cons k v tl =>
      intro fs h
      simp only [collectFields, List.mem_append] at h
      rcases h with h | h
      · exact collectJson_sound v fs h
      · exact collectFields_sound tl fs h
end

/-- An object shaped exactly as C6 describes: `id`, a `title`, and a bare
positive numeric `price`. -/
def bareNumPriceObj : JsonObj :=
  JsonObj.ofList [("id", .num 1), ("price", .num 5000), ("title", .str "X")]

/-- A state tree containing that object. -/
def bareNumPriceState : Json := jobj [("data", .obj bareNumPriceObj)]

/-- Counterexample for C6: the object has an `id`, a title and the bare
positive numeric price `5000`, yet it is never classified as a candidate
(`str(5000)` does not mention `USD`) and extraction outputs no listing at
all — in particular none with price `5000`. -/
theorem c6_counterexample_bare_price_not_extracted :
    truthy (dictGet bareNumPriceObj "id" Json.null) = true ∧
    dictGet bareNumPriceObj "price" Json.null = Json.num 5000 ∧
    hasKey bareNumPriceObj "title" = true ∧
    collectJson bareNumPriceState = [] ∧
    extract_cars_from_pinia bareNumPriceState = [] := by decide

/-- Claim C6 (amended): no candidate object in the parsed state tree has
a bare numeric price — the classifier requires the price's string form to
mention `USD`, which a bare number's decimal rendering never does — so
extraction never accepts such an object and the bare-numeric price branch
is unreachable for collected candidates. -/
theorem c6_no_bare_numeric_price_candidate (root : Json) (fs : JsonObj)
    (hmem : fs ∈ collectJson root) :
    isCand fs = true ∧ (∀ n : Int, dictGet fs "price" .null ≠ Json.num n) := by
  have hc := collectJson_sound root fs hmem
  refine ⟨hc, ?_⟩
  intro n heq
  unfold isCand at hc
  simp only [Bool.and_eq_true] at hc
  have husd := hc.1.2
  rw [heq] at husd
  have hps : pyStr (Json.num n) = intRepr n := rfl
  rw [hps, containsSub_USD_intRepr n] at husd
  exact Bool.false_ne_true husd

/-- Witness for C6's amended claim at the valid USD-priced candidate of
the spec §8 example state. -/
theorem c6_no_bare_numeric_price_candidate_witness :
    isCand exCandValid = true ∧ dictGet exCandValid "price" Json.null ≠ Json.num 5000 :=
  have h := c6_no_bare_numeric_price_candidate exState exCandValid (by decide)
  ⟨h.1, h.2 5000⟩
